import Mathlib

/-!
Verification of the TuneFree music-streaming front-end against its
specification.  The definitions below are shallow embeddings of the
TypeScript source: the Piped instance-failover client
(`src/services/piped.ts`), the search aggregator and legacy resolver
(`src/services/api.ts`), and the playback engine
(`src/contexts/PlayerContext.tsx`).  Network I/O is modelled by oracle
functions passed as parameters; process-wide mutable state is passed
explicitly.
-/

set_option maxHeartbeats 1000000

/-- Model of a JavaScript string-containment test `s.includes(p)`
(substring containment on the character sequence). -/
def strIncludes (s p : String) : Bool := decide (p.data <:+: s.data)

/-- Model of JavaScript `s.startsWith(p)` (code-point sequence). -/
def strStartsWith (s p : String) : Bool := p.data.isPrefixOf s.data

/-! ## Piped client (`src/services/piped.ts`) -/

/-- An HTTP response as observed by `pipedFetch` through the CORS proxy:
only the status code and the `content-type` header matter to it. -/
structure Resp where
  status : Nat
  contentType : String
deriving DecidableEq

/-- The process-wide mutable state of the Piped client:
`PIPED_INSTANCES`, `currentInstanceIndex` and the `BROKEN_INSTANCES`
table (an association of instance base URL to the `Date.now()` at which
it was marked broken). -/
structure PipedState where
  instances : List String
  cursor : Nat
  broken : List (String × Nat)
deriving DecidableEq

/-- `BROKEN_TIMEOUT = 1000 * 60 * 5` (five minutes, in milliseconds). -/
def BROKEN_TIMEOUT : Nat := 1000 * 60 * 5

/-- Lookup in the `BROKEN_INSTANCES` table (`BROKEN_INSTANCES[inst]`,
`undefined` becomes `none`). -/
def lookupBroken : List (String × Nat) → String → Option Nat
  | [], _ => none
  | (k, t) :: rest, i => if k = i then some t else lookupBroken rest i

/-- `BROKEN_INSTANCES[instance] = now`: assignment into the broken table. -/
def markBroken (b : List (String × Nat)) (inst : String) (t : Nat) :
    List (String × Nat) :=
  (inst, t) :: b

/-- The availability predicate of `pipedFetch` / `isAvailable`:
`t === undefined || now - t > BROKEN_TIMEOUT`.  JavaScript subtraction
can go negative, in which case the comparison is false exactly as the
truncated `Nat` subtraction makes it. -/
def instAvailable (broken : List (String × Nat)) (timeout now : Nat)
    (inst : String) : Bool :=
  match lookupBroken broken inst with
  | none => true
  | some t => decide (now - t > timeout)

/-- `PIPED_INSTANCES.filter(...)`: the healthy subset at time `now`. -/
def availableOf (s : PipedState) (now : Nat) : List String :=
  s.instances.filter (fun inst => instAvailable s.broken BROKEN_TIMEOUT now inst)

/-- `isAvailable()` from `src/services/piped.ts`: some instance is not
marked broken within the timeout window. -/
def isAvailable (s : PipedState) (now : Nat) : Bool :=
  s.instances.any (fun inst => instAvailable s.broken BROKEN_TIMEOUT now inst)

/-- JavaScript `Array.prototype.indexOf` returning `none` for `-1`. -/
def idxOfInst : List String → String → Option Nat
  | [], _ => none
  | a :: rest, i => if a = i then some 0 else (idxOfInst rest i).map (· + 1)

/-- The start-index computation of `pipedFetch`: map the rotation cursor
(on the original instance list) into the healthy subset, falling back to
index `0` when the cursor's instance is not in the healthy subset. -/
def startIndexOf (s : PipedState) (available : List String) : Nat :=
  let nowStart := s.cursor % s.instances.length
  match s.instances.get? nowStart with
  | none => 0
  | some orig =>
    match idxOfInst available orig with
    | some j => j
    | none => 0

/-- The candidate order of the `for` loop in `pipedFetch`:
`available[(startIndex + i) % len]` for `i = 0 .. len-1`. -/
def rotationOrder (available : List String) (start : Nat) : List String :=
  (List.range available.length).map
    (fun i => available.getD ((start + i) % available.length) "")

/-- Result of the instance loop: winning instance and its response (if
any), the broken table after the loop, and the instances actually
contacted over the network, in order. -/
structure LoopOut where
  winner : Option (String × Resp)
  broken : List (String × Nat)
  tried : List String
deriving DecidableEq

/-- The body of the `for` loop of `pipedFetch` over the candidate
instances.  A `none` response models a network error or the 8-second
timeout (the `catch` branch).  A 3xx status (redirect, `redirect:
'manual'`), a content type not containing `application/json`, and a
non-ok status each mark the instance broken at `now` and move on; the
first ok JSON response wins. -/
def tryLoop (respond : String → Option Resp) (now : Nat) :
    List (String × Nat) → List String → LoopOut
  | b, [] => ⟨none, b, []⟩
  | b, inst :: rest =>
    match respond inst with
    | none =>
      let o := tryLoop respond now (markBroken b inst now) rest
      ⟨o.winner, o.broken, inst :: o.tried⟩
    | some r =>
      if 300 ≤ r.status ∧ r.status < 400 then
        let o := tryLoop respond now (markBroken b inst now) rest
        ⟨o.winner, o.broken, inst :: o.tried⟩
      else if ¬ (strIncludes r.contentType "application/json" = true) then
        let o := tryLoop respond now (markBroken b inst now) rest
        ⟨o.winner, o.broken, inst :: o.tried⟩
      else if 200 ≤ r.status ∧ r.status < 300 then
        ⟨some (inst, r), b, [inst]⟩
      else
        let o := tryLoop respond now (markBroken b inst now) rest
        ⟨o.winner, o.broken, inst :: o.tried⟩

/-- A candidate instance that would win the loop: it answers (no network
error), is not a redirect, has a JSON content type, and an ok status.
Mirrors the cascade of checks in the loop body. -/
def goodResp (r : Resp) : Bool :=
  if 300 ≤ r.status ∧ r.status < 400 then false
  else if ¬ (strIncludes r.contentType "application/json" = true) then false
  else decide (200 ≤ r.status ∧ r.status < 300)

/-- Whether trying instance `i` would succeed, as a function of the
response oracle. -/
def goodCand (respond : String → Option Resp) (i : String) : Bool :=
  match respond i with
  | none => false
  | some r => goodResp r

/-- Outcome of one `pipedFetch` call: the returned response (with the
instance that produced it), the new client state, and the list of
instances contacted over the network. -/
structure FetchOutcome where
  response : Option (String × Resp)
  state : PipedState
  tried : List String
deriving DecidableEq

/-- `pipedFetch` from `src/services/piped.ts`: filter the healthy subset,
map the cursor into it, return `null` immediately when it is empty,
otherwise try each healthy instance once in rotation order; on success
advance the cursor past the winner (in the original list), on total
failure advance it by one from the start position. -/
def pipedFetch (respond : String → Option Resp) (now : Nat) (s : PipedState) :
    FetchOutcome :=
  let available := availableOf s now
  let startIndex := startIndexOf s available
  if available.length = 0 then
    { response := none, state := s, tried := [] }
  else
    let len := available.length
    let out := tryLoop respond now s.broken (rotationOrder available startIndex)
    match out.winner with
    | some (inst, r) =>
      let cursor' :=
        match idxOfInst s.instances inst with
        | some o => (o + 1) % s.instances.length
        | none => s.cursor
      { response := some (inst, r),
        state := { s with cursor := cursor', broken := out.broken },
        tried := out.tried }
    | none =>
      { response := none,
        state := { s with cursor := (startIndex + 1) % len, broken := out.broken },
        tried := out.tried }

/-! ## Song model and search aggregator (`src/services/api.ts`) -/

/-- The fields of the canonical `Song` record the verified operations
read: `id` (source-scoped identifier, compared after `String(...)`
coercion), `name` and `artist` (used for the deduplication key). -/
structure Song where
  id : String
  name : String
  artist : String
deriving DecidableEq

/-- The deduplication key of `searchAggregate`:
`` `${song.name.toLowerCase()}|${song.artist.toLowerCase()}` ``,
represented by its character sequence. -/
def songKey (s : Song) : List Char :=
  s.name.data.map Char.toLower ++ '|' :: s.artist.data.map Char.toLower

/-- The `uniqueMap` pass of `searchAggregate`: a first-insertion-wins map
keyed by `songKey`, iterated in list order (JavaScript `Map` preserves
insertion order). `seen` is the set of keys already in the map. -/
def dedupByKey (seen : List (List Char)) : List Song → List Song
  | [] => []
  | s :: rest =>
    if songKey s ∈ seen then dedupByKey seen rest
    else s :: dedupByKey (songKey s :: seen) rest

/-- Outcome of one source client's search promise: `ok` its resolved
list, `error` a rejection.  `searchAggregate` attaches `.catch(() => [])`
to each, so a rejection contributes the empty list. -/
def resolveResults : Except Unit (List Song) → List Song
  | .ok l => l
  | .error _ => []

/-- `searchAggregate` from `src/services/api.ts`: concatenate the YouTube
results then the Piped results (each `[]` on rejection), deduplicate by
the lower-cased `name|artist` key keeping the first occurrence, and cap
at 50 entries. -/
def searchAggregate (yt pd : Except Unit (List Song)) : List Song :=
  (dedupByKey [] (resolveResults yt ++ resolveResults pd)).take 50

/-! ## Legacy resolver (`parseSongs`, `getLyrics` in `src/services/api.ts`) -/

/-- The fields of a legacy parse result item read by `getLyrics`
(`data?.[0]?.lrc || data?.[0]?.lyric || data?.[0]?.lyrics`); the empty
string models a missing/falsy field. -/
structure LegacyItem where
  url : String
  lrc : String
  lyric : String
  lyrics : String
deriving DecidableEq

/-- `parseSongs(ids, platform, quality)` from `src/services/api.ts`.
The `legacy` oracle is the composite outcome of the `tuneHubFetch` POST
to `/v1/parse` followed by `extractList` (`none` when the backend call
failed or returned no data).  The boolean records whether the backend
was contacted at all. -/
def parseSongsM (legacy : String → String → String → Option (List LegacyItem))
    (ids platform quality : String) : Option (List LegacyItem) × Bool :=
  if ids = "" ∨ platform = "" then (none, false)
  else if strStartsWith ids "temp_" then (none, false)
  else (legacy ids platform quality, true)

/-- `getLyrics(id, source)` from `src/services/api.ts`: returns `''`
immediately for source `'youtube'`; every other source (including
`'piped'`) falls through to the legacy `parseSongs` path.  The boolean
records whether the legacy path issued a backend call. -/
def getLyricsM (legacy : String → String → String → Option (List LegacyItem))
    (id source : String) : String × Bool :=
  if source = "youtube" then ("", false)
  else
    let r := parseSongsM legacy id source "320k"
    let lrc :=
      match r.1 with
      | some (item :: _) =>
        if item.lrc ≠ "" then item.lrc
        else if item.lyric ≠ "" then item.lyric
        else item.lyrics
      | _ => ""
    if lrc ≠ "" then (lrc, r.2) else ("", r.2)

/-! ## Playback engine (`src/contexts/PlayerContext.tsx`) -/

/-- The play modes of the playback session (`PlayMode` in `types.ts`). -/
inductive PlayMode where
  | sequence
  | loop
  | shuffle
deriving DecidableEq

/-- The engine state read and written by `playSong`, `togglePlay` and the
audio `error` handler: the reactive state together with its ref mirrors
(`currentSongRef`, `queueRef`, `audioQualityRef`, `retryCountRef`) and
the audio element's source attribute (`none` when no source is set). -/
structure PlayerState where
  currentSong : Option Song
  queue : List Song
  isPlaying : Bool
  isLoading : Bool
  retryCount : Nat
  audioSrc : Option String
  quality : String
deriving DecidableEq

/-- Queue management in `playSong` / `addToQueue`: append the song unless
some queued song has the same (string-coerced) id. -/
def appendIfAbsent (q : List Song) (song : Song) : List Song :=
  if q.any (fun s => decide (s.id = song.id)) then q else q ++ [song]

/-- The branch of `togglePlay` taken when a current song and an audio
source are present: pause when playing, play when paused. -/
def togglePlayLoaded (st : PlayerState) : PlayerState :=
  if st.isPlaying then { st with isPlaying := false }
  else { st with isPlaying := true }

/-- Outcome of one `playSong` call: the engine state after the call and
whether a stream-URL resolution (network round trip through the
YouTube/Piped clients) was performed. -/
structure PlayOutcome where
  state : PlayerState
  resolvedStream : Bool
deriving DecidableEq

/-- `playSong(song, forceQuality)` from `src/contexts/PlayerContext.tsx`,
with the stream resolution's outcome supplied by the `resolveUrl` oracle
(`none`: no usable URL from any source).  The same-song shortcut toggles
play/pause without resolving; otherwise the call marks loading, resets
the retry counter when no quality was forced, installs the song as
current, appends it to the queue if absent, then resolves; resolution
failure clears the loading and playing flags, success loads the URL and
starts playback optimistically. -/
def playSongM (st : PlayerState) (song : Song) (forceQuality : Option String)
    (resolveUrl : Option String) : PlayOutcome :=
  let isSameSong :=
    match st.currentSong with
    | some c => decide (c.id = song.id)
    | none => false
  let isDifferentQuality :=
    match forceQuality with
    | some f => decide (f ≠ st.quality)
    | none => false
  if isSameSong && !isDifferentQuality && forceQuality.isNone
      && st.audioSrc.isSome then
    { state := togglePlayLoaded st, resolvedStream := false }
  else
    let st1 := { st with isLoading := true }
    let st2 := if forceQuality.isNone then { st1 with retryCount := 0 } else st1
    let st3 := { st2 with
      currentSong := some song,
      queue := appendIfAbsent st2.queue song }
    -- the stream resolution happens here; the stale-response guard
    -- (`currentSongRef.current?.id !== song.id`) compares against the
    -- state just written and passes in this single-call model
    if (st3.currentSong.map Song.id) = some song.id then
      match resolveUrl with
      | some url =>
        { state := { st3 with
                       audioSrc := some url
                       isPlaying := true
                       isLoading := false },
          resolvedStream := true }
      | none =>
        { state := { st3 with isLoading := false, isPlaying := false },
          resolvedStream := true }
    else
      { state := st3, resolvedStream := true }

/-- The audio element's `error` handler from `createAudioElement`: when a
current song exists, the user-selected quality is not already `'128k'`
and no automatic retry has happened (`retryCountRef.current === 0`), set
the retry counter and re-invoke `playSong(current, '128k')` (the second
component); otherwise stop playback and reset the counter. -/
def errorStep (st : PlayerState) : PlayerState × Option (Song × String) :=
  match st.currentSong with
  | some c =>
    if st.quality ≠ "128k" ∧ st.retryCount = 0 then
      ({ st with retryCount := 1 }, some (c, "128k"))
    else
      ({ st with isLoading := false, isPlaying := false, retryCount := 0 }, none)
  | none =>
    ({ st with isLoading := false, isPlaying := false, retryCount := 0 }, none)

/-- The action selected by `playNext`. -/
inductive NextAction where
  | doNothing
  | restartCurrent
  | playIndex (i : Nat)
deriving DecidableEq

/-- The `do { ... } while (q.length > 1 && nextIndex === currentIndex)`
random draw of shuffle mode, over an explicit stream of draws (each a
`Math.floor(Math.random() * q.length)` result); `none` when the supplied
draws are exhausted before the loop exits. -/
def shufflePick (len : Nat) (cur : Int) : List Nat → Option Nat
  | [] => none
  | d :: rest =>
    if len > 1 ∧ (d : Int) = cur then shufflePick len cur rest else some d

/-- `playNext(force)` from `src/contexts/PlayerContext.tsx`; the natural
track-end handler (`handlers.ended`) invokes it with `force = false`.
An empty queue does nothing; loop mode (unforced) restarts the current
element in place; shuffle draws a random index re-drawing while it
equals the current index (when the queue has more than one entry);
sequence advances to `(currentIndex + 1) % queue.length`. -/
def playNextM (q : List Song) (c : Option Song) (mode : PlayMode)
    (force : Bool) (draws : List Nat) : Option NextAction :=
  if q.length = 0 then some .doNothing
  else if !force && decide (mode = PlayMode.loop) then some .restartCurrent
  else
    let currentIndex : Int :=
      match c with
      | none => -1
      | some cs =>
        match q.findIdx? (fun s => decide (s.id = cs.id)) with
        | some i => (i : Int)
        | none => -1
    if mode = PlayMode.shuffle then
      (shufflePick q.length currentIndex draws).map (fun d => .playIndex d)
    else
      some (.playIndex (((currentIndex + 1) % (q.length : Int)).toNat))

/-- The audio element state touched by the loop branch of `playNext`. -/
structure AudioElem where
  src : Option String
  currentTime : Nat
  paused : Bool
deriving DecidableEq

/-- Effect of a `NextAction` on the audio element: the loop branch sets
`currentTime = 0` and calls `play()` on the same element with no stream
resolution; `playIndex i` defers to `playSong(queue[i])` (the returned
index), which is the only action that resolves a stream URL. -/
def applyAction (a : AudioElem) : NextAction → AudioElem × Option Nat
  | .doNothing => (a, none)
  | .restartCurrent => ({ a with currentTime := 0, paused := false }, none)
  | .playIndex i => (a, some i)

/-! ## Theorems: Piped client -/

theorem lookupBroken_markBroken (b : List (String × Nat)) (inst j : String)
    (t : Nat) :
    lookupBroken (markBroken b inst t) j =
      if inst = j then some t else lookupBroken b j := by
  simp [markBroken, lookupBroken]

theorem tryLoop_preserves_now (respond : String → Option Resp) (now : Nat) :
    ∀ (cands : List String) (b : List (String × Nat)) (j : String),
      lookupBroken b j = some now →
      lookupBroken (tryLoop respond now b cands).broken j = some now := by
  intro cands
  induction cands with
  | nil => intro b j h; simpa [tryLoop] using h
  | cons inst rest ih =>
    intro b j h
    have hmark : lookupBroken (markBroken b inst now) j = some now := by
      rw [lookupBroken_markBroken]
      split <;> simp [h]
    cases hr : respond inst with
    | none => simpa [tryLoop, hr] using ih _ _ hmark
    | some r =>
      by_cases h1 : 300 ≤ r.status ∧ r.status < 400
      · simpa [tryLoop, hr, h1] using ih _ _ hmark
      · by_cases h2 : strIncludes r.contentType "application/json" = true
        · by_cases h3 : 200 ≤ r.status ∧ r.status < 300
          · simpa [tryLoop, hr, h1, h2, h3] using h
          · simpa [tryLoop, hr, h1, h2, h3] using ih _ _ hmark
        · simpa [tryLoop, hr, h1, h2] using ih _ _ hmark


theorem goodResp_iff (r : Resp) :
    goodResp r = true ↔
      strIncludes r.contentType "application/json" = true ∧
      200 ≤ r.status ∧ r.status < 300 := by
  by_cases h1 : 300 ≤ r.status ∧ r.status < 400
  · have hno : ¬ (200 ≤ r.status ∧ r.status < 300) := by omega
    simp [goodResp, h1, hno]
  · by_cases h2 : strIncludes r.contentType "application/json" = true
    · simp [goodResp, h1, h2]
    · simp [goodResp, h1, h2]

theorem tryLoop_cons_notgood (respond : String → Option Resp) (now : Nat)
    (b : List (String × Nat)) (inst : String) (rest : List String)
    (hbad : goodCand respond inst = false) :
    tryLoop respond now b (inst :: rest) =
      ⟨(tryLoop respond now (markBroken b inst now) rest).winner,
       (tryLoop respond now (markBroken b inst now) rest).broken,
       inst :: (tryLoop respond now (markBroken b inst now) rest).tried⟩ := by
  cases hr : respond inst with
  | none => simp [tryLoop, hr]
  | some r =>
    simp only [goodCand, hr] at hbad
    by_cases h1 : 300 ≤ r.status ∧ r.status < 400
    · simp [tryLoop, hr, h1]
    · by_cases h2 : strIncludes r.contentType "application/json" = true
      · by_cases h3 : 200 ≤ r.status ∧ r.status < 300
        · have : goodResp r = true := (goodResp_iff r).mpr ⟨h2, h3⟩
          rw [this] at hbad; cases hbad
        · simp [tryLoop, hr, h1, h2, h3]
      · simp [tryLoop, hr, h1, h2]

theorem tryLoop_cons_good (respond : String → Option Resp) (now : Nat)
    (b : List (String × Nat)) (inst : String) (rest : List String) (r : Resp)
    (hr : respond inst = some r) (hgood : goodResp r = true) :
    tryLoop respond now b (inst :: rest) = ⟨some (inst, r), b, [inst]⟩ := by
  obtain ⟨h2, h3⟩ := (goodResp_iff r).mp hgood
  have h1 : ¬ (300 ≤ r.status ∧ r.status < 400) := by omega
  simp [tryLoop, hr, h1, h2, h3]

theorem tryLoop_winner_good (respond : String → Option Resp) (now : Nat) :
    ∀ (cands : List String) (b : List (String × Nat)) (i : String) (r : Resp),
      (tryLoop respond now b cands).winner = some (i, r) →
      respond i = some r ∧ goodResp r = true := by
  intro cands
  induction cands with
  | nil => intro b i r h; simp [tryLoop] at h
  | cons inst rest ih =>
    intro b i r h
    cases hg : goodCand respond inst with
    | false =>
      rw [tryLoop_cons_notgood respond now b inst rest hg] at h
      exact ih _ _ _ h
    | true =>
      have hg' := hg
      simp only [goodCand] at hg'
      cases hr : respond inst with
      | none => rw [hr] at hg'; cases hg'
      | some rsp =>
        rw [hr] at hg'
        rw [tryLoop_cons_good respond now b inst rest rsp hr hg'] at h
        simp only [Option.some.injEq, Prod.mk.injEq] at h
        obtain ⟨rfl, rfl⟩ := h
        exact ⟨hr, hg'⟩

theorem tryLoop_winner_find (respond : String → Option Resp) (now : Nat) :
    ∀ (cands : List String) (b : List (String × Nat)),
      (tryLoop respond now b cands).winner.map Prod.fst =
        cands.find? (goodCand respond) := by
  intro cands
  induction cands with
  | nil => intro b; simp [tryLoop]
  | cons inst rest ih =>
    intro b
    cases hg : goodCand respond inst with
    | false =>
      rw [tryLoop_cons_notgood respond now b inst rest hg]
      simp only [List.find?_cons, hg]
      exact ih _
    | true =>
      have hg' := hg
      simp only [goodCand] at hg'
      cases hr : respond inst with
      | none => rw [hr] at hg'; cases hg'
      | some rsp =>
        rw [hr] at hg'
        rw [tryLoop_cons_good respond now b inst rest rsp hr hg']
        simp [List.find?_cons, hg]

theorem tryLoop_marks (respond : String → Option Resp) (now : Nat) :
    ∀ (cands : List String) (b : List (String × Nat)) (j : String),
      j ∈ (tryLoop respond now b cands).tried →
      goodCand respond j = false →
      lookupBroken (tryLoop respond now b cands).broken j = some now := by
  intro cands
  induction cands with
  | nil => intro b j hj; simp [tryLoop] at hj
  | cons inst rest ih =>
    intro b j hj hbad
    cases hg : goodCand respond inst with
    | false =>
      rw [tryLoop_cons_notgood respond now b inst rest hg] at hj ⊢
      rcases List.mem_cons.mp hj with rfl | hj'
      · refine tryLoop_preserves_now respond now rest _ _ ?_
        rw [lookupBroken_markBroken]; simp
      · exact ih _ _ hj' hbad
    | true =>
      have hg' := hg
      simp only [goodCand] at hg'
      cases hr : respond inst with
      | none => rw [hr] at hg'; cases hg'
      | some rsp =>
        rw [hr] at hg'
        rw [tryLoop_cons_good respond now b inst rest rsp hr hg'] at hj ⊢
        have : j = inst := by simpa using hj
        subst this
        rw [hg] at hbad; cases hbad

theorem pipedFetch_unfold (respond : String → Option Resp) (now : Nat)
    (s : PipedState) (h : availableOf s now ≠ []) :
    (pipedFetch respond now s).response =
      (tryLoop respond now s.broken
        (rotationOrder (availableOf s now)
          (startIndexOf s (availableOf s now)))).winner ∧
    (pipedFetch respond now s).tried =
      (tryLoop respond now s.broken
        (rotationOrder (availableOf s now)
          (startIndexOf s (availableOf s now)))).tried ∧
    (pipedFetch respond now s).state.broken =
      (tryLoop respond now s.broken
        (rotationOrder (availableOf s now)
          (startIndexOf s (availableOf s now)))).broken := by
  have hlen : ¬ (availableOf s now).length = 0 := by
    simpa [List.length_eq_zero] using h
  unfold pipedFetch
  simp only [hlen, if_false]
  cases hw : (tryLoop respond now s.broken
      (rotationOrder (availableOf s now)
        (startIndexOf s (availableOf s now)))).winner with
  | none => simp [hw]
  | some p => cases p with
    | mk inst r => simp [hw]

/-- C1: for every Piped instance pool with at least one healthy instance,
`pipedFetch` returns the response of the first instance — tried in
rotation order starting from the cursor mapped into the healthy subset —
that answers with a 2xx status and an `application/json` content type;
it never returns a redirect, non-JSON, or non-2xx response, and every
contacted instance that did not succeed is marked broken at the current
time. -/
theorem pipedFetch_first_success (respond : String → Option Resp) (now : Nat)
    (s : PipedState) (h : availableOf s now ≠ []) :
    ((pipedFetch respond now s).response.map Prod.fst =
      (rotationOrder (availableOf s now)
        (startIndexOf s (availableOf s now))).find? (goodCand respond)) ∧
    (∀ i r, (pipedFetch respond now s).response = some (i, r) →
      respond i = some r ∧ 200 ≤ r.status ∧ r.status < 300 ∧
      strIncludes r.contentType "application/json" = true ∧
      ¬ (300 ≤ r.status ∧ r.status < 400)) ∧
    (∀ j ∈ (pipedFetch respond now s).tried, goodCand respond j = false →
      lookupBroken (pipedFetch respond now s).state.broken j = some now) := by
  obtain ⟨hresp, htried, hbrk⟩ := pipedFetch_unfold respond now s h
  refine ⟨?_, ?_, ?_⟩
  · rw [hresp]
    exact tryLoop_winner_find respond now _ _
  · intro i r hir
    rw [hresp] at hir
    obtain ⟨hr, hgood⟩ := tryLoop_winner_good respond now _ _ _ _ hir
    obtain ⟨hjson, h200, h300⟩ := (goodResp_iff r).mp hgood
    exact ⟨hr, h200, h300, hjson, by omega⟩
  · intro j hj hbad
    rw [htried] at hj
    rw [hbrk]
    exact tryLoop_marks respond now _ _ _ hj hbad

/-- Concrete response oracle for the C1 witness: the cursor instance
returns HTTP 502, the next healthy instance returns 200 with JSON, and
everything else times out. -/
def respondW : String → Option Resp := fun i =>
  if i = "ib" then some ⟨502, "application/json"⟩
  else if i = "ic" then some ⟨200, "application/json; charset=utf-8"⟩
  else none

/-- Concrete client state for the C1 witness: three instances, cursor on
the second, the first marked broken recently. -/
def pipedW : PipedState := ⟨["ia", "ib", "ic"], 1, [("ia", 0)]⟩

/-- Witness for C1 at a concrete pool, cursor, broken table and oracle. -/
theorem pipedFetch_first_success_witness :
    availableOf pipedW 10 ≠ [] ∧
    ((pipedFetch respondW 10 pipedW).response.map Prod.fst =
      (rotationOrder (availableOf pipedW 10)
        (startIndexOf pipedW (availableOf pipedW 10))).find?
        (goodCand respondW)) :=
  ⟨by decide, (pipedFetch_first_success respondW 10 pipedW (by decide)).1⟩

/-- C7: an instance marked broken at time `T` is excluded from the
healthy subset used by `pipedFetch` and contributes nothing to
`isAvailable` while `now ≤ T + 5min`, and as soon as `T + 5min < now` it
is eligible again, with no reset of the broken table or cursor needed:
eligibility is a pure function of the unchanged state and the clock. -/
theorem broken_window_spec (s : PipedState) (i : String) (T : Nat)
    (hl : lookupBroken s.broken i = some T) :
    (∀ now, instAvailable s.broken BROKEN_TIMEOUT now i =
      decide (T + BROKEN_TIMEOUT < now)) ∧
    (∀ now, now ≤ T + BROKEN_TIMEOUT → i ∉ availableOf s now) ∧
    (∀ now, T + BROKEN_TIMEOUT < now → i ∈ s.instances →
      i ∈ availableOf s now) ∧
    (∀ now, T + BROKEN_TIMEOUT < now → i ∈ s.instances →
      isAvailable s now = true) := by
  have hinst : ∀ now, instAvailable s.broken BROKEN_TIMEOUT now i =
      decide (T + BROKEN_TIMEOUT < now) := by
    intro now
    rw [instAvailable, hl]
    rw [decide_eq_decide]
    omega
  refine ⟨hinst, ?_, ?_, ?_⟩
  · intro now hle hmem
    rw [availableOf, List.mem_filter] at hmem
    rw [hinst now] at hmem
    have := of_decide_eq_true hmem.2
    omega
  · intro now hlt hmem
    rw [availableOf, List.mem_filter]
    refine ⟨hmem, ?_⟩
    rw [hinst now]
    exact decide_eq_true hlt
  · intro now hlt hmem
    rw [isAvailable, List.any_eq_true]
    refine ⟨i, hmem, ?_⟩
    rw [hinst now]
    exact decide_eq_true hlt

/-- Witness for C7 at a concrete state: one instance broken at `T = 100`. -/
theorem broken_window_spec_witness :
    lookupBroken pipedW.broken "ia" = some 0 ∧
    (∀ now, instAvailable pipedW.broken BROKEN_TIMEOUT now "ia" =
      decide (0 + BROKEN_TIMEOUT < now)) :=
  ⟨by decide, (broken_window_spec pipedW "ia" 0 (by decide)).1⟩

/-- C8: when every instance in the pool is marked broken within the
five-minute window, `pipedFetch` returns `null` without contacting any
instance and without changing the client state. -/
theorem pipedFetch_all_broken (respond : String → Option Resp) (now : Nat)
    (s : PipedState)
    (h : ∀ i ∈ s.instances, ∃ t, lookupBroken s.broken i = some t ∧
      now ≤ t + BROKEN_TIMEOUT) :
    (pipedFetch respond now s).response = none ∧
    (pipedFetch respond now s).tried = [] ∧
    (pipedFetch respond now s).state = s := by
  have hA : availableOf s now = [] := by
    rw [availableOf, List.filter_eq_nil_iff]
    intro i hi
    obtain ⟨t, hl, hle⟩ := h i hi
    rw [instAvailable, hl]
    simp only [decide_eq_true_eq]
    omega
  have hlen : (availableOf s now).length = 0 := by rw [hA]; rfl
  unfold pipedFetch
  simp [hlen]

/-- Concrete all-broken state for the C8 witness. -/
def pipedW2 : PipedState := ⟨["ia", "ib"], 0, [("ia", 100), ("ib", 40)]⟩

/-- Witness for C8: both instances broken 60ms before `now = 100`. -/
theorem pipedFetch_all_broken_witness :
    (∀ i ∈ pipedW2.instances, ∃ t, lookupBroken pipedW2.broken i = some t ∧
      100 ≤ t + BROKEN_TIMEOUT) ∧
    (pipedFetch respondW 100 pipedW2).response = none :=
  ⟨by
    intro i hi
    fin_cases hi
    · exact ⟨100, by decide, by decide⟩
    · exact ⟨40, by decide, by decide⟩,
   (pipedFetch_all_broken respondW 100 pipedW2 (by
    intro i hi
    fin_cases hi
    · exact ⟨100, by decide, by decide⟩
    · exact ⟨40, by decide, by decide⟩)).1⟩

/-! ## Theorems: search aggregator -/

theorem dedupByKey_subset :
    ∀ (l : List Song) (seen : List (List Char)) (s : Song),
      s ∈ dedupByKey seen l → s ∈ l := by
  intro l
  induction l with
  | nil => intro seen s hs; simp [dedupByKey] at hs
  | cons a l ih =>
    intro seen s hs
    by_cases h : songKey a ∈ seen
    · simp only [dedupByKey, if_pos h] at hs
      exact List.mem_cons_of_mem a (ih _ _ hs)
    · simp only [dedupByKey, if_neg h] at hs
      rcases List.mem_cons.mp hs with rfl | hs'
      · exact List.mem_cons_self _ _
      · exact List.mem_cons_of_mem a (ih _ _ hs')

theorem dedupByKey_key_fresh :
    ∀ (l : List Song) (seen : List (List Char)) (s : Song),
      s ∈ dedupByKey seen l → songKey s ∉ seen := by
  intro l
  induction l with
  | nil => intro seen s hs; simp [dedupByKey] at hs
  | cons a l ih =>
    intro seen s hs
    by_cases h : songKey a ∈ seen
    · simp only [dedupByKey, if_pos h] at hs
      exact ih _ _ hs
    · simp only [dedupByKey, if_neg h] at hs
      rcases List.mem_cons.mp hs with rfl | hs'
      · exact h
      · have := ih _ _ hs'
        intro hc
        exact this (List.mem_cons_of_mem _ hc)

theorem dedupByKey_nodup_keys :
    ∀ (l : List Song) (seen : List (List Char)),
      ((dedupByKey seen l).map songKey).Nodup := by
  intro l
  induction l with
  | nil => intro seen; simp [dedupByKey]
  | cons a l ih =>
    intro seen
    by_cases h : songKey a ∈ seen
    · simp only [dedupByKey, if_pos h]
      exact ih _
    · simp only [dedupByKey, if_neg h, List.map_cons]
      refine List.nodup_cons.mpr ⟨?_, ih _⟩
      intro hc
      obtain ⟨t, ht, hkey⟩ := List.mem_map.mp hc
      have := dedupByKey_key_fresh l _ t ht
      rw [hkey] at this
      exact this (List.mem_cons_self _ _)

theorem dedupByKey_left_priority :
    ∀ (ytl : List Song) (seen : List (List Char)) (pdl : List Song) (s : Song),
      s ∈ dedupByKey seen (ytl ++ pdl) →
      (∃ y ∈ ytl, songKey y = songKey s) → s ∈ ytl := by
  intro ytl
  induction ytl with
  | nil => intro seen pdl s _ hex; simp at hex
  | cons a ytl ih =>
    intro seen pdl s hs hex
    by_cases h : songKey a ∈ seen
    · rw [List.cons_append] at hs
      simp only [dedupByKey, if_pos h] at hs
      obtain ⟨y, hy, hkey⟩ := hex
      rcases List.mem_cons.mp hy with rfl | hy'
      · exfalso
        have := dedupByKey_key_fresh _ _ _ hs
        rw [← hkey] at this
        exact this h
      · exact List.mem_cons_of_mem a (ih _ _ _ hs ⟨y, hy', hkey⟩)
    · rw [List.cons_append] at hs
      simp only [dedupByKey, if_neg h] at hs
      rcases List.mem_cons.mp hs with rfl | hs'
      · exact List.mem_cons_self _ _
      · obtain ⟨y, hy, hkey⟩ := hex
        rcases List.mem_cons.mp hy with rfl | hy'
        · exfalso
          have := dedupByKey_key_fresh _ _ _ hs'
          rw [← hkey] at this
          exact this (List.mem_cons_self _ _)
        · exact List.mem_cons_of_mem a (ih _ _ _ hs' ⟨y, hy', hkey⟩)

/-- C4: for every keyword (that is, every pair of client outcomes),
`searchAggregate` returns at most 50 entries; the returned entries have
pairwise distinct lower-cased `name|artist` keys; every entry comes from
one of the two sources; an entry whose key also occurs in the YouTube
results is itself a YouTube entry (duplicates are resolved
YouTube-first); and when either client rejects, the result is exactly
the deduplicated, capped result list of the other source. -/
theorem searchAggregate_spec (yt pd : Except Unit (List Song)) :
    (searchAggregate yt pd).length ≤ 50 ∧
    ((searchAggregate yt pd).map songKey).Nodup ∧
    (∀ s ∈ searchAggregate yt pd,
      s ∈ resolveResults yt ++ resolveResults pd) ∧
    (∀ s ∈ searchAggregate yt pd,
      (∃ y ∈ resolveResults yt, songKey y = songKey s) →
      s ∈ resolveResults yt) ∧
    (yt = .error () →
      searchAggregate yt pd = (dedupByKey [] (resolveResults pd)).take 50) ∧
    (pd = .error () →
      searchAggregate yt pd = (dedupByKey [] (resolveResults yt)).take 50) := by
  refine ⟨?_, ?_, ?_, ?_, ?_, ?_⟩
  · exact List.length_take_le _ _
  · rw [searchAggregate, List.map_take]
    exact (List.take_sublist _ _).nodup (dedupByKey_nodup_keys _ _)
  · intro s hs
    exact dedupByKey_subset _ _ _ ((List.take_sublist _ _).subset hs)
  · intro s hs hex
    exact dedupByKey_left_priority _ _ _ _
      ((List.take_sublist _ _).subset hs) hex
  · intro hyt
    rw [searchAggregate, hyt]
    rfl
  · intro hpd
    rw [searchAggregate, hpd]
    simp [resolveResults]

/-- Concrete songs for witnesses. -/
def songW1 : Song := ⟨"idA", "Alpha", "X"⟩

/-- Second concrete song for witnesses. -/
def songW2 : Song := ⟨"idB", "Beta", "Y"⟩

/-- Third concrete song for witnesses. -/
def songW3 : Song := ⟨"idC", "Gamma", "Z"⟩

/-- Witness for C4 at concrete client outcomes. -/
theorem searchAggregate_spec_witness :
    (searchAggregate (Except.ok [songW1, songW2])
      (Except.ok [songW3])).length ≤ 50 :=
  (searchAggregate_spec (Except.ok [songW1, songW2]) (Except.ok [songW3])).1

/-! ## Theorems: legacy resolver -/

/-- A legacy backend outcome whose first item carries an `lrc` field;
used to exhibit the `getLyrics` fall-through for source `'piped'`. -/
def legacyWithLrc : String → String → String → Option (List LegacyItem) :=
  fun _ _ _ => some [⟨"", "la-la", "", ""⟩]

/-- C9 (refuted, code bug): `getLyrics` short-circuits only for source
`'youtube'`; for source `'piped'` it falls through to the legacy
`parseSongs` path — contradicting the comment in the source that neither
YouTube nor Piped provides lyrics — so with a valid id it contacts the
legacy backend (second component `true`) and returns whatever lyrics
that backend yields instead of the empty string. -/
theorem getLyrics_piped_uses_legacy :
    getLyricsM legacyWithLrc "abc123" "piped" = ("la-la", true) ∧
    getLyricsM legacyWithLrc "abc123" "youtube" = ("", false) := by
  constructor <;> decide

/-- A legacy backend oracle that always fails; used for witnesses. -/
def legacyNone : String → String → String → Option (List LegacyItem) :=
  fun _ _ _ => none

/-- C10: for every id starting with the synthesized placeholder marker
`temp_` and every platform and quality, `parseSongs` returns `null`
immediately and never contacts the backend — so a `Song` whose id was
synthesized (`isValidId = false`) is never sent to the legacy resolution
backend. -/
theorem parseSongs_temp_guard
    (legacy : String → String → String → Option (List LegacyItem))
    (ids platform quality : String)
    (h : strStartsWith ids "temp_" = true) :
    parseSongsM legacy ids platform quality = (none, false) := by
  rw [parseSongsM]
  by_cases h0 : ids = "" ∨ platform = ""
  · rw [if_pos h0]
  · rw [if_neg h0, if_pos h]

/-- Witness for C10 at a concrete placeholder id and platform. -/
theorem parseSongs_temp_guard_witness :
    strStartsWith "temp_x7q" "temp_" = true ∧
    parseSongsM legacyNone "temp_x7q" "netease" "320k" = (none, false) :=
  ⟨by decide, parseSongs_temp_guard legacyNone "temp_x7q" "netease" "320k"
    (by decide)⟩

/-! ## Theorems: playback engine -/

theorem playSongM_force_retryCount (st : PlayerState) (song : Song)
    (f : String) (resolveUrl : Option String) :
    (playSongM st song (some f) resolveUrl).state.retryCount =
      st.retryCount := by
  rw [playSongM]
  simp only [Option.isNone_some, Bool.and_false, Bool.false_and,
    Bool.and_self, if_false]
  cases resolveUrl <;> simp

/-- C6: calling `playSong` again with the song that is already current
and loaded (the audio element has a source) and no forced quality
performs no stream resolution and no network call, and only toggles the
playing flag — every other component of the engine state is unchanged. -/
theorem playSong_same_loaded_toggles (st : PlayerState) (song c : Song)
    (resolveUrl : Option String) (u : String)
    (hc : st.currentSong = some c) (hid : c.id = song.id)
    (hsrc : st.audioSrc = some u) :
    playSongM st song none resolveUrl =
      { state := { st with isPlaying := !st.isPlaying },
        resolvedStream := false } := by
  have hsame : (match st.currentSong with
      | some c => decide (c.id = song.id)
      | none => false) = true := by
    rw [hc]; simp [hid]
  rw [playSongM]
  simp only [hsame, hsrc, Option.isSome_some, Option.isNone_none,
    Bool.not_false, Bool.and_self, Bool.true_and, Bool.and_true, if_true]
  by_cases hp : st.isPlaying <;> simp [togglePlayLoaded, hp, hsrc]

/-- Witness for C6: the current, loaded song is requested again. -/
theorem playSong_same_loaded_toggles_witness :
    (⟨some ⟨"idA", "Alpha", "X"⟩, [⟨"idA", "Alpha", "X"⟩], true, false, 0,
       some "urlA", "320k"⟩ : PlayerState).currentSong =
        some ⟨"idA", "Alpha", "X"⟩ ∧
    playSongM
      (⟨some ⟨"idA", "Alpha", "X"⟩, [⟨"idA", "Alpha", "X"⟩], true, false, 0,
        some "urlA", "320k"⟩ : PlayerState) ⟨"idA", "Alpha", "X"⟩ none none =
      { state := { (⟨some ⟨"idA", "Alpha", "X"⟩, [⟨"idA", "Alpha", "X"⟩],
                     true, false, 0, some "urlA", "320k"⟩ : PlayerState) with
                   isPlaying := !(⟨some ⟨"idA", "Alpha", "X"⟩,
                     [⟨"idA", "Alpha", "X"⟩], true, false, 0, some "urlA",
                     "320k"⟩ : PlayerState).isPlaying },
        resolvedStream := false } :=
  ⟨rfl, playSong_same_loaded_toggles _ _ _ none "urlA" rfl rfl rfl⟩

/-- The concrete engine state used by the C5 counterexample: song A is
current, queued and playing. -/
def stPrev : PlayerState :=
  ⟨some songW1, [songW1], true, false, 0, some "urlA", "320k"⟩

/-- C5 counterexample: requesting song B while song A is current and
playing, with stream resolution failing, does not leave the previous
track's state untouched — the current song, the queue and the playing
flag all differ afterwards (current becomes B, B is appended, playing is
cleared). -/
theorem playSong_failure_cex :
    ¬ ((playSongM stPrev songW2 none none).state.currentSong =
         stPrev.currentSong ∧
       (playSongM stPrev songW2 none none).state.queue = stPrev.queue ∧
       (playSongM stPrev songW2 none none).state.isPlaying =
         stPrev.isPlaying) := by
  decide

/-- C5 (amended): when `playSong` is called for a song that is not the
current one and its stream resolution fails, nothing starts playing —
the playing and loading flags are cleared and the audio element's source
and the quality are untouched — but the requested song does become the
current song and is appended to the queue if absent; the previous
current song and the playing flag are not restored. -/
theorem playSong_failure_amended (st : PlayerState) (song : Song)
    (hdiff : ∀ c, st.currentSong = some c → c.id ≠ song.id) :
    (playSongM st song none none).state.isPlaying = false ∧
    (playSongM st song none none).state.isLoading = false ∧
    (playSongM st song none none).state.audioSrc = st.audioSrc ∧
    (playSongM st song none none).state.quality = st.quality ∧
    (playSongM st song none none).state.currentSong = some song ∧
    (playSongM st song none none).state.queue =
      appendIfAbsent st.queue song ∧
    (playSongM st song none none).resolvedStream = true := by
  have hsame : (match st.currentSong with
      | some c => decide (c.id = song.id)
      | none => false) = false := by
    cases hcs : st.currentSong with
    | none => rfl
    | some c => simp [hdiff c hcs]
  rw [playSongM]
  simp [hsame]

/-- Witness for C5's amended claim: song B requested over current song A,
resolution failing. -/
theorem playSong_failure_amended_witness :
    (∀ c, stPrev.currentSong = some c → c.id ≠ songW2.id) ∧
    (playSongM stPrev songW2 none none).state.isPlaying = false :=
  ⟨by intro c hc; cases hc; decide,
   (playSong_failure_amended stPrev songW2
     (by intro c hc; cases hc; decide)).1⟩

/-- C2: when playback errors with a current song, a user quality other
than `'128k'` and no retry recorded, the error handler re-invokes
`playSong` at `'128k'` exactly once (setting the retry counter); an
error when the quality is already `'128k'` stops playback with no retry;
and after the single retry — whose `playSong` call, carrying a forced
quality, does not reset the counter — any second error stops playback
(playing and loading cleared) with no further retry. -/
theorem error_retry_once (st : PlayerState) (s : Song)
    (resolveUrl : Option String)
    (hc : st.currentSong = some s) (hq : st.quality ≠ "128k")
    (hr : st.retryCount = 0) :
    errorStep st = ({ st with retryCount := 1 }, some (s, "128k")) ∧
    (∀ st', st'.quality = "128k" →
      (errorStep st').2 = none ∧ (errorStep st').1.isPlaying = false ∧
      (errorStep st').1.isLoading = false) ∧
    ((errorStep (playSongM { st with retryCount := 1 } s (some "128k")
        resolveUrl).state).2 = none ∧
     (errorStep (playSongM { st with retryCount := 1 } s (some "128k")
        resolveUrl).state).1.isPlaying = false ∧
     (errorStep (playSongM { st with retryCount := 1 } s (some "128k")
        resolveUrl).state).1.isLoading = false) := by
  refine ⟨?_, ?_, ?_⟩
  · simp only [errorStep, hc]
    rw [if_pos ⟨hq, hr⟩]
  · intro st' hq'
    cases hcs : st'.currentSong with
    | none => simp [errorStep, hcs]
    | some c =>
      simp only [errorStep, hcs]
      rw [if_neg (by simp [hq'])]
      exact ⟨rfl, rfl, rfl⟩
  · have hrc : (playSongM { st with retryCount := 1 } s (some "128k")
        resolveUrl).state.retryCount = 1 := by
      rw [playSongM_force_retryCount]
    cases hcs : (playSongM { st with retryCount := 1 } s (some "128k")
        resolveUrl).state.currentSong with
    | none => simp [errorStep, hcs]
    | some c =>
      simp only [errorStep, hcs]
      rw [if_neg ?_]
      · exact ⟨rfl, rfl, rfl⟩
      · rintro ⟨-, h0⟩
        rw [hrc] at h0
        exact absurd h0 (by omega)

/-- Witness for C2: song A playing at `'320k'`, no retry recorded. -/
theorem error_retry_once_witness :
    stPrev.currentSong = some songW1 ∧ stPrev.quality ≠ "128k" ∧
    stPrev.retryCount = 0 ∧
    errorStep stPrev = ({ stPrev with retryCount := 1 },
      some (songW1, "128k")) :=
  ⟨rfl, by decide, rfl,
   (error_retry_once stPrev songW1 none rfl (by decide) rfl).1⟩

theorem shufflePick_ne (len : Nat) (cur : Int) :
    ∀ (draws : List Nat) (d : Nat), shufflePick len cur draws = some d →
      1 < len → (d : Int) ≠ cur := by
  intro draws
  induction draws with
  | nil => intro d h; simp [shufflePick] at h
  | cons x rest ih =>
    intro d h hlen
    rw [shufflePick] at h
    by_cases hx : len > 1 ∧ (x : Int) = cur
    · rw [if_pos hx] at h
      exact ih _ h hlen
    · rw [if_neg hx] at h
      cases h
      intro heq
      exact hx ⟨hlen, heq⟩

/-- C3: with a non-empty queue and the current song at index `i`, the
natural track-end call `playNext(false)` behaves per mode: sequence
advances to index `(i + 1) % queue.length`; shuffle (queue longer than
one) never selects index `i` again; loop restarts the current element in
place — an action that performs no `playSong` re-invocation and hence no
stream resolution or network call, and resets the position to 0. -/
theorem playNext_mode_semantics (q : List Song) (c : Song) (i : Nat)
    (draws : List Nat) (a : AudioElem)
    (hi : q.findIdx? (fun s => decide (s.id = c.id)) = some i) :
    (playNextM q (some c) .sequence false draws =
      some (.playIndex ((i + 1) % q.length))) ∧
    (∀ j, 1 < q.length →
      playNextM q (some c) .shuffle false draws = some (.playIndex j) →
      j ≠ i) ∧
    (q ≠ [] → playNextM q (some c) .loop false draws =
      some .restartCurrent) ∧
    ((applyAction a .restartCurrent).2 = none ∧
     (applyAction a .restartCurrent).1.currentTime = 0) := by
  have hne : q.length ≠ 0 := by
    intro h0
    rw [List.length_eq_zero] at h0
    subst h0
    simp [List.findIdx?] at hi
  have hcast : (((i : Int) + 1) % (q.length : Int)).toNat =
      (i + 1) % q.length := by
    have h1 : ((i : Int) + 1) = ((i + 1 : Nat) : Int) := by push_cast; ring
    rw [h1, ← Int.natCast_mod]
    exact Int.toNat_natCast _
  refine ⟨?_, ?_, ?_, ⟨rfl, rfl⟩⟩
  · rw [playNextM]
    simp only [hne, if_false, hi]
    norm_num
    exact hcast ▸ rfl
  · intro j hlen hplay
    rw [playNextM] at hplay
    simp only [hne, if_false, hi] at hplay
    norm_num at hplay
    obtain ⟨d, hd, hdj⟩ := Option.map_eq_some'.mp hplay
    have : d = j := by
      cases hdj
      rfl
    subst this
    have := shufflePick_ne q.length (i : Int) draws d hd hlen
    intro hji
    subst hji
    exact this rfl
  · intro hq
    rw [playNextM]
    simp [hne]

/-- The audio element used by the C3 witness. -/
def audioW : AudioElem := ⟨some "u", 37, false⟩

/-- Witness for C3 at queue `[A, B, C]` with current song `B`. -/
theorem playNext_mode_semantics_witness :
    [songW1, songW2, songW3].findIdx?
      (fun s => decide (s.id = songW2.id)) = some 1 ∧
    playNextM [songW1, songW2, songW3] (some songW2) .sequence false [2] =
      some (.playIndex ((1 + 1) % [songW1, songW2, songW3].length)) :=
  ⟨by decide,
   (playNext_mode_semantics [songW1, songW2, songW3] songW2 1 [2] audioW
     (by decide)).1⟩
